import Mathlib

/-!
Verification of the task-orchestration core of the multi-agent paper-review
program (`main.py`): tier selection, per-task retry, result caching, and the
staged fan-out / fan-in pipeline.

Conventions of the embedding:
* Python floats are modelled as rationals (`ℚ`); all score arithmetic in the
  source is on small decimal constants, which are exact in `ℚ`.
* The external text-generation capability is modelled as an explicit input:
  a `CapResult` (or a stream `Nat → CapResult`, indexed by the number of
  capability calls already made) describing what the call would return.
* Python exceptions are modelled with `Except`: a raised exception is an
  `Except.error` value, and a `try/except` handler is a `match` on it.
-/

namespace PaperReview

/-- Python truthiness of `not message or not message.strip()` in `Agent.run`:
the message is empty or consists only of whitespace characters. -/
def isBlank (message : String) : Bool :=
  message.toList.all (fun c => c.isWhitespace)

/-- A failure raised by the underlying chat-completion call.  The `transient`
flag records whether the failure is transient (network error, rate limit,
5xx) or non-transient (e.g. a malformed request); the source code never
inspects this distinction. -/
structure CapFailure where
  transient : Bool
  msg : String
deriving DecidableEq

/-- Outcome of one invocation of the external text-generation capability. -/
inductive CapResult
  | ok (text : String)
  | err (f : CapFailure)
deriving DecidableEq

/-- The errors `Agent.run` can raise: the `ValueError` for a missing client,
the `ValueError` for an empty message, and any exception propagated from the
capability call (logged and re-raised by the `except` block in `run`). -/
inductive RunError
  | clientMissing
  | emptyMessage
  | capability (f : CapFailure)
deriving DecidableEq

deriving instance DecidableEq for Except

/-- Trace of one call of the retry-decorated `Agent.run`: the final outcome
(for an exhausted retry budget, the last underlying error, which tenacity
wraps in a `RetryError`), the number of capability invocations, the sleeps
performed between attempts, and the number of attempts made. -/
structure RunTrace where
  result : Except RunError String
  calls : Nat
  waits : List ℚ
  attempts : Nat
deriving DecidableEq

/-- Model of the tenacity function `wait_exponential(multiplier, min, max)` evaluated
after attempt number `n`: `multiplier * 2 ** n` clamped into
`[max 0 min, max]`. -/
def wait_exponential (multiplier mn mx : ℚ) (n : Nat) : ℚ :=
  max (max 0 mn) (min (multiplier * 2 ^ n) mx)

/-- The state of an `Agent` that is relevant to the control flow of `run`: whether
`_init_client` produced a client (an API key was configured).  The name,
instructions, model and temperature only parameterize the payload of the
external call and are irrelevant to the verified control flow. -/
structure Agent where
  hasClient : Bool

/-- One undecorated execution of the body of `Agent.run`: raise if the client
is missing, raise if the message is blank, otherwise perform exactly one
capability call (whose outcome is `cap`); an exception from the call is
logged and re-raised.  Returns the outcome together with whether the
capability was invoked. -/
def runAttempt (a : Agent) (message : String) (cap : CapResult) :
    Except RunError String × Bool :=
  if a.hasClient = false then (Except.error RunError.clientMissing, false)
  else if isBlank message then (Except.error RunError.emptyMessage, false)
  else
    match cap with
    | CapResult.ok text => (Except.ok text, true)
    | CapResult.err f => (Except.error (RunError.capability f), true)

/-- Model of the tenacity decorator `@retry(stop=stop_after_attempt(3), wait=...)` loop
around the body: any exception from the body triggers a sleep and a re-run,
until the attempt count reaches the stop bound, after which the last error
surfaces.  `fuel` is the number of retries still allowed after the current
attempt, `attemptNumber` the 1-based number of the current attempt, `calls`
the capability invocations so far (indexing into the stream `cap`). -/
def retryLoop (a : Agent) (message : String) (cap : Nat → CapResult) :
    Nat → Nat → Nat → List ℚ → RunTrace
  | 0, attemptNumber, calls, waits =>
    (match runAttempt a message (cap calls) with
     | (Except.ok s, invoked) =>
       RunTrace.mk (Except.ok s) (calls + (if invoked then 1 else 0)) waits attemptNumber
     | (Except.error e, invoked) =>
       RunTrace.mk (Except.error e) (calls + (if invoked then 1 else 0)) waits attemptNumber)
  | Nat.succ fuel2, attemptNumber, calls, waits =>
    (match runAttempt a message (cap calls) with
     | (Except.ok s, invoked) =>
       RunTrace.mk (Except.ok s) (calls + (if invoked then 1 else 0)) waits attemptNumber
     | (Except.error _, invoked) =>
       retryLoop a message cap fuel2 (attemptNumber + 1) (calls + (if invoked then 1 else 0))
         (waits ++ [wait_exponential 1 4 60 attemptNumber]))

/-- `Agent.run` as decorated in the source:
`@retry(stop=stop_after_attempt(3), wait=wait_exponential(multiplier=1, min=4, max=60))`.
Three attempts total, i.e. two retries after the first attempt. -/
def Agent.run (a : Agent) (message : String) (cap : Nat → CapResult) : RunTrace :=
  retryLoop a message cap 2 1 0 []

/-- Model/resource names configured in `Config`; only the three tier-bound
model fields matter for the verified logic. -/
structure Config where
  model_powerful : String
  model_standard : String
  model_basic : String

/-- The static base complexity table `AgentFactory.AGENT_BASE_COMPLEXITY`. -/
def AGENT_BASE_COMPLEXITY : List (String × ℚ) :=
  [("methodology", 0.9),
   ("results", 0.7),
   ("literature", 0.6),
   ("structure", 0.3),
   ("impact", 0.7),
   ("contradiction", 0.9),
   ("ethics", 0.5),
   ("ai_origin", 0.4),
   ("hallucination", 0.6),
   ("coordinator", 1.0),
   ("editor", 0.8),
   ("author_editor_summary", 0.8)]

/-- Core of `AgentFactory._determine_model_for_agent`, parameterized by the
base task complexity: combine paper and task complexity with weights 0.6/0.4
and pick the model for the resulting score. -/
def determine_model_core (config : Config) (paper_complexity_score base_task_complexity : ℚ) :
    String :=
  let final_score := paper_complexity_score * 0.6 + base_task_complexity * 0.4
  if final_score ≥ 0.75 then config.model_powerful
  else if final_score ≥ 0.5 then config.model_standard
  else config.model_basic

/-- `AgentFactory._determine_model_for_agent`: look up the base
complexity of the task (`dict.get` with default 0.5) and select the model
from the combined score. -/
def determine_model_for_agent (config : Config) (paper_complexity_score : ℚ)
    (agent_name : String) : String :=
  determine_model_core config paper_complexity_score
    ((AGENT_BASE_COMPLEXITY.lookup agent_name).getD 0.5)

/-- The three execution tiers of the spec. -/
inductive ExecutionTier
  | basic
  | standard
  | powerful
deriving DecidableEq

/-- Modelled from the spec: `selectTier(baseWeight, complexity)` with
`finalScore = complexity * 0.6 + baseWeight * 0.4`; `finalScore >= 0.75 →
powerful`, `>= 0.50 → standard`, else `basic`.  Used only as the comparison
point for refinement statements about `determine_model_core`. -/
def selectTier (baseWeight complexity : ℚ) : ExecutionTier :=
  let finalScore := complexity * 0.6 + baseWeight * 0.4
  if finalScore ≥ 0.75 then ExecutionTier.powerful
  else if finalScore ≥ 0.5 then ExecutionTier.standard
  else ExecutionTier.basic

/-- The concrete model name bound to a tier by the configuration. -/
def modelForTier (config : Config) : ExecutionTier → String
  | ExecutionTier.powerful => config.model_powerful
  | ExecutionTier.standard => config.model_standard
  | ExecutionTier.basic => config.model_basic

/-- `ReviewOrchestrator._assess_paper_complexity`.  The classification call
and the subsequent parsing are modelled by `call_outcome`: `none` when the
call raises, the response is not valid JSON, or the `float(...)` conversion
fails (all caught by the `except` block), and `some score` when a numeric
`complexity_score` was obtained (a missing key yields `some 0.5` through the
`result.get` default).  The function is total: every failure path returns
the default 0.5 instead of raising. -/
def assess_paper_complexity (hasClient : Bool) (call_outcome : Option ℚ) : ℚ :=
  if hasClient = false then 0.5
  else
    match call_outcome with
    | none => 0.5
    | some score => if 0 ≤ score ∧ score ≤ 1 then score else 0.5

/-- `AsyncAgent.arun`: raise on a blank message, otherwise exactly one
capability call whose outcome is returned (or whose exception propagates).
No retry decorator is applied to `arun`.  Second component: number of
capability invocations. -/
def async_arun (message : String) (cap : CapResult) : Except RunError String × Nat :=
  if isBlank message then (Except.error RunError.emptyMessage, 0)
  else
    match cap with
    | CapResult.ok text => (Except.ok text, 1)
    | CapResult.err f => (Except.error (RunError.capability f), 1)

/-- Result of one `CachingAsyncAgent.arun` call: outcome, updated cache
(`_cache`, keyed by `hash(message)`), and number of underlying capability
invocations. -/
structure CacheCallResult where
  result : Except RunError String
  cache : List (Int × String)
  calls : Nat

/-- `CachingAsyncAgent.arun`: look up `hash(message)` in the cache and
return the stored text on a hit without calling the underlying runner; on a
miss run `AsyncAgent.arun` and cache a successful result (an exception
propagates and caches nothing).  `hashFn` models the Python builtin `hash`, an
arbitrary deterministic function on strings. -/
def caching_arun (hashFn : String → Int) (cache : List (Int × String)) (message : String)
    (cap : CapResult) : CacheCallResult :=
  let key := hashFn message
  match cache.lookup key with
  | some v => CacheCallResult.mk (Except.ok v) cache 0
  | none =>
    match async_arun message cap with
    | (Except.ok result, n) => CacheCallResult.mk (Except.ok result) ((key, result) :: cache) n
    | (Except.error e, n) => CacheCallResult.mk (Except.error e) cache n

/-- The `main_agents` list of `ReviewOrchestrator._execute_main_reviewers`:
the nine primary reviewer tasks fanned out concurrently. -/
def main_agents : List String :=
  ["methodology", "results", "literature", "structure", "impact",
   "contradiction", "ethics", "ai_origin", "hallucination"]

/-- The keys of `AgentFactory.create_all_agents`, i.e. the task identifiers
for which `self.agents.get(name)` returns an agent after orchestrator
setup. -/
def all_agent_names : List String :=
  main_agents ++ ["coordinator", "editor", "author_editor_summary"]

/-- Whether `self.agents.get(name)` finds an agent in the orchestrator built
by `execute_review_process`. -/
def hasAgent (name : String) : Bool :=
  all_agent_names.contains name

/-- How `_batch_process_agents` records one gathered outcome in the reviews
map: an exception becomes explicit error text, a success is stored as-is. -/
def renderBatchEntry : Except String String → String
  | Except.error e => "Error during review: " ++ e
  | Except.ok s => s

/-- Model of `asyncio.gather(*tasks, return_exceptions=True)`: each task has
a fixed slot (its index in `results`), outcomes are recorded as tasks
complete (`order` lists task indices in completion order) and the returned
list is read back in slot order, so it is indexed by task, not by
completion. -/
def gatherSlots {α : Type} (results : List α) (order : List Nat) : List α :=
  let completed := order.filterMap (fun i => (results[i]?).map (fun r => (i, r)))
  (List.range results.length).filterMap (fun i => completed.lookup i)

/-- `ReviewOrchestrator._batch_process_agents`, with the completion order of
the concurrently gathered tasks made explicit: tasks are created for the
named agents that exist, `asyncio.gather` collects every outcome (success or
exception), and the reviews map is built by zipping the agent names with the
gathered results, converting exceptions to error text.  `outcome name` is
what the task for `name` produces. -/
def batch_process_agents_with_order (agent_names : List String) (hasAg : String → Bool)
    (outcome : String → Except String String) (order : List Nat) : List (String × String) :=
  let tasks := agent_names.filter hasAg
  let results_list := gatherSlots (tasks.map outcome) order
  (agent_names.zip results_list).map (fun p =>
    match p.2 with
    | Except.error e => (p.1, "Error during review: " ++ e)
    | Except.ok s => (p.1, s))

/-- `ReviewOrchestrator._batch_process_agents` with the canonical (in-index)
completion order; `asyncio.gather` returns results in task order regardless
of completion order, so this is the returned reviews map. -/
def batch_process_agents (agent_names : List String) (hasAg : String → Bool)
    (outcome : String → Except String String) : List (String × String) :=
  batch_process_agents_with_order agent_names hasAg outcome
    (List.range (agent_names.filter hasAg).length)

/-- The `reviews_text` block shared by `_execute_coordinator`,
`_execute_author_editor_summary` and `_execute_editor`: one header-plus-body
section per reviews entry, joined by blank lines, in map iteration order. -/
def reviews_text (reviews : List (String × String)) : String :=
  String.intercalate "\n\n"
    (reviews.map (fun p => "=== " ++ p.1.toUpper ++ " REVIEW ===\n" ++ p.2))

/-- The message `_execute_coordinator` sends to the coordinator agent. -/
def coordinator_message (reviews : List (String × String)) : String :=
  "\nHere are all the expert reviews for the paper:\n\n" ++ reviews_text reviews
    ++ "\n\nPlease provide your comprehensive coordinator assessment based on all these reviews.\n"

/-- The message `_execute_author_editor_summary` sends to the summary agent. -/
def summary_message (reviews : List (String × String)) : String :=
  "\nHere are all the expert reviews and the coordinator\x27s assessment for the paper:\n\n"
    ++ reviews_text reviews
    ++ "\n\nPlease provide the two requested summaries as per your instructions.\n"

/-- The message `_execute_editor` sends to the editor agent. -/
def editor_message (all_reviews : List (String × String)) : String :=
  "\nHere are all the reviews including the coordinator\x27s assessment:\n\n"
    ++ reviews_text all_reviews
    ++ "\n\nPlease provide your editorial decision based on all these reviews.\n"

/-- `ReviewOrchestrator._execute_coordinator`: missing agent yields a stub
string; an exception from the agent run is caught and converted to error
text.  `behavior` maps the message actually sent to the run outcome. -/
def execute_coordinator (hasAg : String → Bool) (behavior : String → Except String String)
    (reviews : List (String × String)) : String :=
  if hasAg "coordinator" = false then "Coordinator review not available"
  else
    match behavior (coordinator_message reviews) with
    | Except.ok coordinator_review => coordinator_review
    | Except.error e => "Error in coordinator assessment: " ++ e

/-- `ReviewOrchestrator._execute_author_editor_summary`. -/
def execute_author_editor_summary (hasAg : String → Bool)
    (behavior : String → Except String String) (reviews : List (String × String)) : String :=
  if hasAg "author_editor_summary" = false then "Author/Editor summary not available"
  else
    match behavior (summary_message reviews) with
    | Except.ok summary => summary
    | Except.error e => "Error in author/editor summary: " ++ e

/-- `ReviewOrchestrator._execute_editor`. -/
def execute_editor (hasAg : String → Bool) (behavior : String → Except String String)
    (all_reviews : List (String × String)) : String :=
  if hasAg "editor" = false then "Editorial decision not available"
  else
    match behavior (editor_message all_reviews) with
    | Except.ok editor_decision => editor_decision
    | Except.error e => "Error in editorial decision: " ++ e

/-- The per-task behaviors feeding one run of `execute_review_process`:
what each primary task produces, and what the coordinator, summary and
editor agents produce for the message they receive (`Except.error` models
the agent call raising). -/
structure PipelineBehavior where
  primary : String → Except String String
  coordinator : String → Except String String
  summary : String → Except String String
  editor : String → Except String String

/-- The output assembled by `_synthesize_results`: the full reviews map, the
editorial decision artifact, and the reviewer count (paper metadata,
timestamp and model configuration echoes are omitted as they do not interact
with the verified control flow). -/
structure FinalResults where
  reviews : List (String × String)
  editor_decision : String
  num_reviewers : Nat

/-- The review-stage core of `ReviewOrchestrator.execute_review_process`:
fan out the nine primary reviewers, append the coordinator result, append
the author/editor summary, run the editor on the full map, and synthesize.
Every per-task failure is converted to a map entry or error text at its task
boundary, so the function is total in the task behaviors. -/
def execute_review_process (b : PipelineBehavior) : FinalResults :=
  let reviews0 := batch_process_agents main_agents hasAgent b.primary
  let reviews1 := reviews0 ++ [("coordinator", execute_coordinator hasAgent b.coordinator reviews0)]
  let reviews2 := reviews1
    ++ [("author_editor_summary", execute_author_editor_summary hasAgent b.summary reviews1)]
  FinalResults.mk reviews2 (execute_editor hasAgent b.editor reviews2) reviews2.length

/-- Behavior in which every task of the pipeline fails with message `e`. -/
def allFailBehavior (e : String) : PipelineBehavior :=
  PipelineBehavior.mk (fun _ => Except.error e) (fun _ => Except.error e)
    (fun _ => Except.error e) (fun _ => Except.error e)

/-- A concrete configuration with the default model names of `Config`. -/
def cfgW : Config := Config.mk "o3" "gpt-4.1" "gpt-4.1-mini"

/-- A concrete capability stream: transient failures on the first two calls,
success on the third. -/
def c4_cap : Nat → CapResult :=
  fun n => if n = 2 then CapResult.ok "done" else CapResult.err (CapFailure.mk true "rate limit")

/-- A concrete stand-in for the Python builtin `hash` on strings. -/
def c6_hash : String → Int := fun s => Int.ofNat s.length

lemma wait_exponential_bounds (n : Nat) :
    4 ≤ wait_exponential 1 4 60 n ∧ wait_exponential 1 4 60 n ≤ 60 := by
  constructor
  · have h : max (0 : ℚ) 4 = 4 := by norm_num
    rw [wait_exponential, h]
    exact le_max_left _ _
  · exact max_le (by norm_num) (min_le_right _ _)

lemma wait_exponential_one : wait_exponential 1 4 60 1 = 4 := by
  norm_num [wait_exponential, max_def, min_def]

lemma wait_exponential_two : wait_exponential 1 4 60 2 = 4 := by
  norm_num [wait_exponential, max_def, min_def]

lemma retryLoop_attempts_le (a : Agent) (m : String) (cap : Nat → CapResult) :
    ∀ (fuel att calls : Nat) (w : List ℚ),
      (retryLoop a m cap fuel att calls w).attempts ≤ att + fuel := by
  intro fuel
  induction fuel with
  | zero =>
    intro att calls w
    simp only [retryLoop]
    split <;> simp
  | succ fuel2 ih =>
    intro att calls w
    simp only [retryLoop]
    split
    · simp
    · rename_i e invoked heq
      have h := ih (att + 1) (calls + (if invoked then 1 else 0))
        (w ++ [wait_exponential 1 4 60 att])
      omega

lemma retryLoop_waits_bounded (a : Agent) (m : String) (cap : Nat → CapResult) :
    ∀ (fuel att calls : Nat) (w : List ℚ), (∀ x ∈ w, 4 ≤ x ∧ x ≤ 60) →
      ∀ x ∈ (retryLoop a m cap fuel att calls w).waits, 4 ≤ x ∧ x ≤ 60 := by
  intro fuel
  induction fuel with
  | zero =>
    intro att calls w hw
    simp only [retryLoop]
    split <;> exact hw
  | succ fuel2 ih =>
    intro att calls w hw
    simp only [retryLoop]
    split
    · exact hw
    · rename_i e invoked heq
      refine ih (att + 1) (calls + (if invoked then 1 else 0))
        (w ++ [wait_exponential 1 4 60 att]) ?_
      intro x hx
      rcases List.mem_append.mp hx with h | h
      · exact hw x h
      · rcases List.mem_singleton.mp h with rfl
        exact wait_exponential_bounds att

lemma determine_model_core_eq_modelForTier (config : Config) (complexity base : ℚ) :
    determine_model_core config complexity base
      = modelForTier config (selectTier base complexity) := by
  rw [determine_model_core, selectTier]
  by_cases h1 : complexity * 0.6 + base * 0.4 ≥ 0.75
  · simp [h1, modelForTier]
  · by_cases h2 : complexity * 0.6 + base * 0.4 ≥ 0.5
    · simp [h1, h2, modelForTier]
    · simp [h1, h2, modelForTier]

lemma zip_map_self {α β : Type} (l : List α) (f : α → β) :
    l.zip (l.map f) = l.map (fun a => (a, f a)) := by
  induction l with
  | nil => rfl
  | cons a t ih => simp [ih]

lemma lookup_completed {α : Type} (results : List α) (i : Nat) :
    ∀ order : List Nat,
      (order.filterMap (fun j => (results[j]?).map (fun r => (j, r)))).lookup i
        = if i ∈ order then results[i]? else none := by
  intro order
  induction order with
  | nil => simp
  | cons j tl ih =>
    cases hg : results[j]? with
    | none =>
      by_cases hij : i = j
      · subst hij
        simp [List.filterMap_cons, hg, ih]
      · simp [List.filterMap_cons, hg, ih, hij]
    | some r =>
      by_cases hij : i = j
      · subst hij
        simp [List.filterMap_cons, hg, List.lookup_cons]
      · have hb : (i == j) = false := by simp [hij]
        simp [List.filterMap_cons, hg, List.lookup_cons, hb, hij, ih]

lemma filterMap_get_range {α : Type} (l : List α) :
    (List.range l.length).filterMap (fun i => l[i]?) = l := by
  induction l with
  | nil => rfl
  | cons a t ih =>
    rw [List.length_cons, List.range_succ_eq_map]
    simp only [List.filterMap_cons, List.getElem?_cons_zero, List.filterMap_map]
    have h : ((fun i => (a :: t)[i]?) ∘ Nat.succ) = fun i => t[i]? := by
      funext i
      simp
    rw [h, ih]

lemma gatherSlots_perm {α : Type} (results : List α) (order : List Nat)
    (h : List.Perm order (List.range results.length)) :
    gatherSlots results order = results := by
  rw [gatherSlots]
  have step : (List.range results.length).filterMap
        (fun i => (order.filterMap (fun j => (results[j]?).map (fun r => (j, r)))).lookup i)
      = (List.range results.length).filterMap (fun i => results[i]?) := by
    apply List.filterMap_congr
    intro i hi
    rw [lookup_completed]
    rw [if_pos (h.mem_iff.mpr hi)]
  rw [step, filterMap_get_range]

lemma batch_process_agents_main (outcome : String → Except String String) :
    batch_process_agents main_agents hasAgent outcome
      = main_agents.map (fun n => (n, renderBatchEntry (outcome n))) := by
  have hfilter : main_agents.filter hasAgent = main_agents := by decide
  rw [batch_process_agents, batch_process_agents_with_order, hfilter]
  rw [gatherSlots_perm _ _ (by simp)]
  rw [zip_map_self]
  rw [List.map_map]
  apply List.map_congr_left
  intro a _
  cases h : outcome a <;> simp [Function.comp, h, renderBatchEntry]

/-- C1: for every base weight and complexity score, the model selected by
the core of `_determine_model_for_agent` refines the spec tier map
`selectTier`, and the final score `complexity * 0.6 + base * 0.4` maps to
the powerful model iff it is at least 0.75, to the standard model on
[0.5, 0.75), and to the basic model below 0.5; the boundary scores 0.75 and
0.5 fall in the upper branch. -/
theorem c1_tier_thresholds (config : Config) (complexity base : ℚ) :
    determine_model_core config complexity base = modelForTier config (selectTier base complexity)
    ∧ (complexity * 0.6 + base * 0.4 ≥ 0.75 →
        determine_model_core config complexity base = config.model_powerful)
    ∧ (0.5 ≤ complexity * 0.6 + base * 0.4 → complexity * 0.6 + base * 0.4 < 0.75 →
        determine_model_core config complexity base = config.model_standard)
    ∧ (complexity * 0.6 + base * 0.4 < 0.5 →
        determine_model_core config complexity base = config.model_basic)
    ∧ (complexity * 0.6 + base * 0.4 = 0.75 →
        determine_model_core config complexity base = config.model_powerful)
    ∧ (complexity * 0.6 + base * 0.4 = 0.5 →
        determine_model_core config complexity base = config.model_standard) := by
  refine ⟨determine_model_core_eq_modelForTier config complexity base, ?_, ?_, ?_, ?_, ?_⟩ <;>
    [skip; skip; skip; skip; skip] <;> intros <;>
    simp only [determine_model_core] <;> split_ifs <;> first | rfl | linarith

/-- Witness for C1 at the boundary: complexity 0.75 with base weight 0.75
gives final score exactly 0.75 and selects the powerful model. -/
theorem c1_tier_thresholds_witness :
    ((0.75 : ℚ) * 0.6 + 0.75 * 0.4 = 0.75) ∧ determine_model_core cfgW 0.75 0.75 = "o3" :=
  ⟨by norm_num, Eq.trans ((c1_tier_thresholds cfgW 0.75 0.75).2.2.2.2.1 (by norm_num)) rfl⟩

/-- C10: for every agent name outside the static base-complexity table,
tier selection uses the default base weight 0.5, so the selected model is
the one for the tier of `complexity * 0.6 + 0.5 * 0.4`. -/
theorem c10_unknown_agent_default (config : Config) (complexity : ℚ) (agent_name : String)
    (h : AGENT_BASE_COMPLEXITY.lookup agent_name = none) :
    determine_model_for_agent config complexity agent_name
      = determine_model_core config complexity 0.5
    ∧ determine_model_for_agent config complexity agent_name
      = modelForTier config (selectTier 0.5 complexity) := by
  have heq : determine_model_for_agent config complexity agent_name
      = determine_model_core config complexity 0.5 := by
    rw [determine_model_for_agent, h]
    rfl
  exact ⟨heq, heq.trans (determine_model_core_eq_modelForTier config complexity 0.5)⟩

/-- Witness for C10 at the concrete unknown name "reviewer_x". -/
theorem c10_unknown_agent_default_witness :
    AGENT_BASE_COMPLEXITY.lookup "reviewer_x" = none
    ∧ determine_model_for_agent cfgW 0.9 "reviewer_x" = determine_model_core cfgW 0.9 0.5 :=
  ⟨by decide, (c10_unknown_agent_default cfgW 0.9 "reviewer_x" (by decide)).1⟩

/-- C5: the complexity assessor always returns a score in [0, 1]; when the
classification call fails or cannot be parsed (`none`) or the parsed value
is outside [0, 1], it returns the default 0.5.  The modelled function is
total, i.e. no failure path raises. -/
theorem c5_assessor_defaults (hasClient : Bool) (call_outcome : Option ℚ) :
    (0 ≤ assess_paper_complexity hasClient call_outcome
      ∧ assess_paper_complexity hasClient call_outcome ≤ 1)
    ∧ (call_outcome = none → assess_paper_complexity hasClient call_outcome = 0.5)
    ∧ (∀ q, call_outcome = some q → ¬ (0 ≤ q ∧ q ≤ 1) →
        assess_paper_complexity hasClient call_outcome = 0.5) := by
  refine ⟨?_, ?_, ?_⟩
  · cases hasClient <;> rcases call_outcome with _ | q <;>
      simp only [assess_paper_complexity] <;> try norm_num
    split_ifs with h
    · exact h
    · norm_num
  · intro h
    subst h
    cases hasClient <;> simp [assess_paper_complexity]
  · intro q hq hbad
    subst hq
    cases hasClient <;> simp [assess_paper_complexity, hbad]

/-- Witness for C5 at the out-of-range value 1.7. -/
theorem c5_assessor_defaults_witness :
    ¬ ((0 : ℚ) ≤ 1.7 ∧ (1.7 : ℚ) ≤ 1) ∧ assess_paper_complexity true (some 1.7) = 0.5 :=
  ⟨by norm_num, (c5_assessor_defaults true (some 1.7)).2.2 1.7 rfl (by norm_num)⟩

/-- C2 (amended): for every blank input message, every attempt of
`Agent.run` fails on the emptiness check before any capability call (zero
external calls in total), but the tenacity decorator re-invokes the body, so
three attempts are made before the failure surfaces. -/
theorem c2_blank_retried (message : String) (cap : Nat → CapResult)
    (hb : isBlank message = true) :
    (Agent.run ⟨true⟩ message cap).result = Except.error RunError.emptyMessage
    ∧ (Agent.run ⟨true⟩ message cap).calls = 0
    ∧ (Agent.run ⟨true⟩ message cap).attempts = 3 := by
  simp [Agent.run, retryLoop, runAttempt, hb]

/-- Witness for C2 at the whitespace-only message " ". -/
theorem c2_blank_retried_witness :
    (Agent.run ⟨true⟩ " " (fun _ => CapResult.ok "x")).result = Except.error RunError.emptyMessage
    ∧ (Agent.run ⟨true⟩ " " (fun _ => CapResult.ok "x")).calls = 0
    ∧ (Agent.run ⟨true⟩ " " (fun _ => CapResult.ok "x")).attempts = 3 :=
  c2_blank_retried " " (fun _ => CapResult.ok "x") (by decide)

/-- Counterexample to C2 as stated: on the whitespace-only message " " the
run makes no capability call, but it is retried — three attempts are made,
not one. -/
theorem c2_not_retried_counterexample :
    (Agent.run ⟨true⟩ " " (fun _ => CapResult.ok "x")).calls = 0
    ∧ (Agent.run ⟨true⟩ " " (fun _ => CapResult.ok "x")).attempts = 3
    ∧ ¬ (Agent.run ⟨true⟩ " " (fun _ => CapResult.ok "x")).attempts = 1 :=
  ⟨by decide, by decide, by decide⟩

/-- C3 (amended): a capability that fails on every call — transient or
not, e.g. a malformed request — is invoked three times by `Agent.run`, and
the failure surfaces only after the retry budget is exhausted. -/
theorem c3_nontransient_retried (message : String) (cap : Nat → CapResult) (f : CapFailure)
    (hb : isBlank message = false) (hcap : ∀ n, cap n = CapResult.err f) :
    (Agent.run ⟨true⟩ message cap).result = Except.error (RunError.capability f)
    ∧ (Agent.run ⟨true⟩ message cap).calls = 3
    ∧ (Agent.run ⟨true⟩ message cap).attempts = 3 := by
  simp [Agent.run, retryLoop, runAttempt, hb, hcap 0, hcap 1, hcap 2]

/-- Witness for C3 with a persistent non-transient failure. -/
theorem c3_nontransient_retried_witness :
    (Agent.run ⟨true⟩ "req" (fun _ => CapResult.err (CapFailure.mk false "bad request"))).result
      = Except.error (RunError.capability (CapFailure.mk false "bad request"))
    ∧ (Agent.run ⟨true⟩ "req" (fun _ => CapResult.err (CapFailure.mk false "bad request"))).calls = 3
    ∧ (Agent.run ⟨true⟩ "req"
        (fun _ => CapResult.err (CapFailure.mk false "bad request"))).attempts = 3 :=
  c3_nontransient_retried "req" (fun _ => CapResult.err (CapFailure.mk false "bad request"))
    (CapFailure.mk false "bad request") (by decide) (fun _ => rfl)

/-- Counterexample to C3 as stated: for a persistent non-transient failure
("bad request"), three underlying invocations occur, not exactly one. -/
theorem c3_single_invocation_counterexample :
    (Agent.run ⟨true⟩ "req" (fun _ => CapResult.err (CapFailure.mk false "bad request"))).calls = 3
    ∧ ¬ (Agent.run ⟨true⟩ "req"
          (fun _ => CapResult.err (CapFailure.mk false "bad request"))).calls = 1 :=
  ⟨by decide, by decide⟩

/-- C4: `Agent.run` makes at most 3 attempts, every wait between attempts
lies in [4, 60] time-units, and when the capability fails on attempts 1 and
2 and succeeds on attempt 3 the run returns the success result after three
calls with waits of exactly 4 time-units (the exponential waits 2 and 4 of
tenacity, clamped from below by min=4 and from above by max=60). -/
theorem c4_retry_backoff (hc : Bool) (message : String) (cap : Nat → CapResult) :
    (Agent.run ⟨hc⟩ message cap).attempts ≤ 3
    ∧ (∀ w ∈ (Agent.run ⟨hc⟩ message cap).waits, 4 ≤ w ∧ w ≤ 60)
    ∧ (∀ (s : String) (f1 f2 : CapFailure), hc = true → isBlank message = false →
        cap 0 = CapResult.err f1 → cap 1 = CapResult.err f2 → cap 2 = CapResult.ok s →
        (Agent.run ⟨hc⟩ message cap).result = Except.ok s
        ∧ (Agent.run ⟨hc⟩ message cap).calls = 3
        ∧ (Agent.run ⟨hc⟩ message cap).waits = [4, 4]) := by
  refine ⟨retryLoop_attempts_le _ _ _ 2 1 0 [], ?_, ?_⟩
  · exact retryLoop_waits_bounded _ _ _ 2 1 0 [] (by simp)
  · intro s f1 f2 hcl hb h0 h1 h2
    subst hcl
    simp [Agent.run, retryLoop, runAttempt, hb, h0, h1, h2,
      wait_exponential_one, wait_exponential_two]

/-- Witness for C4 on a concrete capability stream failing twice then
succeeding. -/
theorem c4_retry_backoff_witness :
    (Agent.run ⟨true⟩ "hello" c4_cap).result = Except.ok "done"
    ∧ (Agent.run ⟨true⟩ "hello" c4_cap).calls = 3
    ∧ (Agent.run ⟨true⟩ "hello" c4_cap).waits = [4, 4] :=
  (c4_retry_backoff true "hello" c4_cap).2.2 "done" (CapFailure.mk true "rate limit")
    (CapFailure.mk true "rate limit") rfl (by decide) (by decide) (by decide) (by decide)

/-- C6: for a non-blank message, a cache hit returns the stored text with
no underlying invocation, and if a first `CachingAsyncAgent.arun` call
returns text then a second call with the byte-identical message returns the
same text, with at most one underlying invocation across both calls. -/
theorem c6_cache_single_flight (hashFn : String → Int) (cache : List (Int × String))
    (message : String) (cap1 cap2 : CapResult) (s : String)
    (hb : isBlank message = false) :
    (∀ v, cache.lookup (hashFn message) = some v →
      caching_arun hashFn cache message cap1 = CacheCallResult.mk (Except.ok v) cache 0)
    ∧ ((caching_arun hashFn cache message cap1).result = Except.ok s →
        (caching_arun hashFn (caching_arun hashFn cache message cap1).cache message cap2).result
          = Except.ok s
        ∧ (caching_arun hashFn cache message cap1).calls
            + (caching_arun hashFn (caching_arun hashFn cache message cap1).cache
                message cap2).calls ≤ 1) := by
  constructor
  · intro v hv
    simp [caching_arun, hv]
  · intro hok
    cases hl : cache.lookup (hashFn message) with
    | some v =>
      have h1 : caching_arun hashFn cache message cap1
          = CacheCallResult.mk (Except.ok v) cache 0 := by
        simp [caching_arun, hl]
      rw [h1] at hok ⊢
      have hsv : v = s := by simpa using hok
      subst hsv
      simp [caching_arun, hl]
    | none =>
      cases cap1 with
      | ok t =>
        have h1 : caching_arun hashFn cache message (CapResult.ok t)
            = CacheCallResult.mk (Except.ok t) ((hashFn message, t) :: cache) 1 := by
          simp [caching_arun, hl, async_arun, hb]
        rw [h1] at hok ⊢
        have hts : t = s := by simpa using hok
        subst hts
        constructor
        · simp [caching_arun, List.lookup_cons]
        · simp [caching_arun, List.lookup_cons]
      | err f =>
        have h1 : (caching_arun hashFn cache message (CapResult.err f)).result
            = Except.error (RunError.capability f) := by
          simp [caching_arun, hl, async_arun, hb]
        rw [h1] at hok
        exact absurd hok (by simp)

/-- Witness for C6: two calls with the message "hi"; the second returns
the first result ("resp") even though its own capability would return
"other", and only one underlying call is made. -/
theorem c6_cache_single_flight_witness :
    (caching_arun c6_hash (caching_arun c6_hash [] "hi" (CapResult.ok "resp")).cache "hi"
        (CapResult.ok "other")).result = Except.ok "resp"
    ∧ (caching_arun c6_hash [] "hi" (CapResult.ok "resp")).calls
        + (caching_arun c6_hash (caching_arun c6_hash [] "hi" (CapResult.ok "resp")).cache "hi"
            (CapResult.ok "other")).calls ≤ 1 :=
  (c6_cache_single_flight c6_hash [] "hi" (CapResult.ok "resp") (CapResult.ok "other") "resp"
    (by decide)).2 (by rfl)

/-- C7: for every assignment of per-task outcomes, the reviews map built
by `_batch_process_agents` over the nine primary tasks has exactly one
entry per task — failures rendered as explicit "Error during review" text,
never omitted, and the entry of each task depends only on its own outcome —
and the aggregator message is built from that complete map. -/
theorem c7_fanout_complete_map (outcome : String → Except String String) :
    batch_process_agents main_agents hasAgent outcome
      = main_agents.map (fun n => (n, renderBatchEntry (outcome n)))
    ∧ (batch_process_agents main_agents hasAgent outcome).length = 9
    ∧ coordinator_message (batch_process_agents main_agents hasAgent outcome)
      = coordinator_message (main_agents.map (fun n => (n, renderBatchEntry (outcome n)))) := by
  refine ⟨batch_process_agents_main outcome, ?_, ?_⟩
  · rw [batch_process_agents_main outcome]
    simp [main_agents]
  · rw [batch_process_agents_main outcome]

/-- C8: the reviews map, and hence the input text fed to the coordinator
(aggregator), is identical for any two completion orders of the same
primary results: `asyncio.gather` stores results by task slot, so the map
is in canonical task order, independent of completion order. -/
theorem c8_order_independent (agent_names : List String) (hasAg : String → Bool)
    (outcome : String → Except String String) (order1 order2 : List Nat)
    (h1 : List.Perm order1 (List.range (agent_names.filter hasAg).length))
    (h2 : List.Perm order2 (List.range (agent_names.filter hasAg).length)) :
    batch_process_agents_with_order agent_names hasAg outcome order1
      = batch_process_agents_with_order agent_names hasAg outcome order2
    ∧ coordinator_message (batch_process_agents_with_order agent_names hasAg outcome order1)
      = coordinator_message (batch_process_agents_with_order agent_names hasAg outcome order2) := by
  have key : ∀ order : List Nat,
      List.Perm order (List.range (agent_names.filter hasAg).length) →
      batch_process_agents_with_order agent_names hasAg outcome order
        = (agent_names.zip ((agent_names.filter hasAg).map outcome)).map (fun p =>
            match p.2 with
            | Except.error e => (p.1, "Error during review: " ++ e)
            | Except.ok s => (p.1, s)) := by
    intro order ho
    rw [batch_process_agents_with_order]
    rw [gatherSlots_perm _ _ (by simpa using ho)]
  have e1 := key order1 h1
  have e2 := key order2 h2
  refine ⟨e1.trans e2.symm, ?_⟩
  rw [e1, e2]

/-- Witness for C8 with two tasks completing in opposite orders. -/
theorem c8_order_independent_witness :
    batch_process_agents_with_order ["a", "b"] (fun _ => true) (fun n => Except.ok n) [1, 0]
      = batch_process_agents_with_order ["a", "b"] (fun _ => true) (fun n => Except.ok n) [0, 1]
    ∧ coordinator_message
        (batch_process_agents_with_order ["a", "b"] (fun _ => true) (fun n => Except.ok n) [1, 0])
      = coordinator_message
        (batch_process_agents_with_order ["a", "b"] (fun _ => true) (fun n => Except.ok n) [0, 1]) :=
  c8_order_independent ["a", "b"] (fun _ => true) (fun n => Except.ok n) [1, 0] [0, 1]
    (by decide) (by decide)

/-- C9: the pipeline is total in the per-task behaviors: for every
behavior the reviews map contains the nine primary entries plus the
coordinator and summary entries, the decision artifact is the editor-stage
output, and even when every task (including coordinator, summary and
editor) fails, the run completes with error-text entries and an error-text
decision artifact instead of raising. -/
theorem c9_pipeline_total (b : PipelineBehavior) (e : String) :
    (execute_review_process b).reviews.map Prod.fst
      = main_agents ++ ["coordinator", "author_editor_summary"]
    ∧ (execute_review_process b).editor_decision
      = execute_editor hasAgent b.editor (execute_review_process b).reviews
    ∧ (execute_review_process (allFailBehavior e)).reviews
      = main_agents.map (fun n => (n, "Error during review: " ++ e))
        ++ [("coordinator", "Error in coordinator assessment: " ++ e),
            ("author_editor_summary", "Error in author/editor summary: " ++ e)]
    ∧ (execute_review_process (allFailBehavior e)).editor_decision
      = "Error in editorial decision: " ++ e := by
  refine ⟨?_, ?_, ?_, ?_⟩
  · rw [execute_review_process]
    simp only [List.map_append, List.map_cons, List.map_nil]
    rw [batch_process_agents_main]
    rw [List.map_map]
    have hid : (Prod.fst ∘ fun n : String => (n, renderBatchEntry (b.primary n)))
        = fun n : String => n := by
      funext n
      rfl
    rw [hid]
    simp
  · rfl
  · rw [execute_review_process]
    rw [batch_process_agents_main]
    have hc : hasAgent "coordinator" = true := by decide
    have hs : hasAgent "author_editor_summary" = true := by decide
    simp [execute_coordinator, execute_author_editor_summary, hc, hs,
      allFailBehavior, renderBatchEntry]
  · rw [execute_review_process]
    have he : hasAgent "editor" = true := by decide
    simp [execute_editor, he, allFailBehavior]


end PaperReview
